import Mathlib

/-!
# FX-Replay simulation core — verification development

Shallow embedding of the replay simulation engine of the FX-Replay
application.  Prices, times and sizes are JavaScript numbers in the source;
they are modelled as rationals (`ℚ`), which captures the exact arithmetic
the spec reasons about (binary floating-point rounding is not modelled).

The embedded functions mirror, statement by statement:
* `processPriceAction` / its per-position body (the `setPositions` updater
  in the `App` component): `evalPosition`, `evalEvent`, `evalFired`,
  `processPriceAction`;
* the manual-close handler `handleClosePosition`;
* the partial-close confirm handler of the `PartialCloseModal` `onConfirm`
  prop together with the modal's `sizeToClose` computation;
* the trade-panel lot sizing `calculateLots`;
* the animation-frame cursor advance (`advanceCursor`);
* the balance-recompute effect (`applyCommand`), which recomputes
  `balance = initialBalance + Σ closedPnl` after every position-list change.

JavaScript truthiness tests on optional numeric fields (`p.sl && ...`,
`p.exitTime && ...`) are modelled faithfully: the field must be present
*and* non-zero (`truthy`).  Fields of the TypeScript `Position` interface
that no modelled code path reads or writes (`trailingStop`,
`breakEvenPrice`) are omitted.  The `Math.random()`-generated event ids and
`Date.now()` wall-clock stamps of `TriggeredEvent` are inherently
nondeterministic and are omitted from the event record; the deterministic
fields (`price`, `type`, `positionId`, `candleTime`) are kept.
-/

namespace FXReplay

/-- `'BUY' | 'SELL'` from `types.ts`. -/
inductive PosType where
  | BUY
  | SELL
deriving DecidableEq, Repr

/-- `'MARKET' | 'LIMIT' | 'STOP'` from `types.ts`. -/
inductive OrderType where
  | MARKET
  | LIMIT
  | STOP
deriving DecidableEq, Repr

/-- `'PENDING' | 'OPEN' | 'CLOSED'` from `types.ts`. -/
inductive Status where
  | PENDING
  | OPEN
  | CLOSED
deriving DecidableEq, Repr

/-- `'TP' | 'SL' | 'MANUAL' | 'PARTIAL'` from `types.ts`. -/
inductive ExitReason where
  | TP
  | SL
  | MANUAL
  | PARTIAL
deriving DecidableEq, Repr

/-- The `Position` interface of `types.ts` (modelled fields; optional
numeric fields become `Option ℚ`). -/
structure Position where
  id : String
  type : PosType
  orderType : OrderType
  entryPrice : ℚ
  entryTime : ℚ
  size : ℚ
  initialSize : ℚ
  riskAmount : ℚ
  tp : Option ℚ
  sl : Option ℚ
  status : Status
  exitPrice : Option ℚ
  exitTime : Option ℚ
  pnl : Option ℚ
  closedPnl : Option ℚ
  asset : String
  exitReason : Option ExitReason
  parentId : Option String
deriving DecidableEq, Repr

/-- JavaScript truthiness of an optional number: present and non-zero. -/
def truthy (o : Option ℚ) : Bool :=
  match o with
  | none => false
  | some x => decide (x ≠ 0)

/-- Stop-loss hit test of `processPriceAction`:
`BUY`: `p.sl && low <= p.sl`; `SELL`: `p.sl && high >= p.sl`. -/
def slTriggered (t : PosType) (sl : Option ℚ) (high low : ℚ) : Bool :=
  match sl with
  | none => false
  | some s =>
    match t with
    | .BUY => decide (s ≠ 0) && decide (low ≤ s)
    | .SELL => decide (s ≠ 0) && decide (s ≤ high)

/-- Take-profit hit test of `processPriceAction`:
`BUY`: `p.tp && high >= p.tp`; `SELL`: `p.tp && low <= p.tp`. -/
def tpTriggered (t : PosType) (tp : Option ℚ) (high low : ℚ) : Bool :=
  match tp with
  | none => false
  | some v =>
    match t with
    | .BUY => decide (v ≠ 0) && decide (v ≤ high)
    | .SELL => decide (v ≠ 0) && decide (low ≤ v)

/-- Pending-order trigger test of `processPriceAction` (the four
type/orderType combinations; a pending `MARKET` order never matches). -/
def entryTriggered (t : PosType) (ot : OrderType) (price high low : ℚ) : Bool :=
  match t, ot with
  | .BUY, .LIMIT => decide (low ≤ price)
  | .BUY, .STOP => decide (price ≤ high)
  | .SELL, .LIMIT => decide (price ≤ high)
  | .SELL, .STOP => decide (low ≤ price)
  | _, .MARKET => false

/-- Direction-signed price delta used by every pnl computation in the app:
`p.type === 'BUY' ? exit - entry : entry - exit`. -/
def signedDiff (t : PosType) (entryP exitP : ℚ) : ℚ :=
  match t with
  | .BUY => exitP - entryP
  | .SELL => entryP - exitP

/-- The record update performed by the SL/TP exit branch of
`processPriceAction`. -/
def exitFill (cs time price : ℚ) (r : ExitReason) (p : Position) : Position :=
  { p with
    status := .CLOSED
    exitPrice := some price
    exitTime := some time
    closedPnl := some (signedDiff p.type p.entryPrice price * p.size * cs)
    exitReason := some r }

/-- The per-position body of the `setPositions` updater inside
`processPriceAction` (`App`, `src/unnamed/part_006`), branch for branch:
1. rewind re-opening of a CLOSED position whose (truthy) `exitTime` is in
   the future of the candle;
2. rewind un-triggering of an OPEN non-MARKET position whose `entryTime`
   is in the future of the candle;
3. SL/TP exit evaluation of OPEN positions (SL tested first);
4. entry triggering of PENDING orders. -/
def evalPosition (cs high low time : ℚ) (p : Position) : Position :=
  if p.status = .CLOSED ∧ truthy p.exitTime ∧ time < p.exitTime.getD 0 then
    { p with
      status := if p.orderType ≠ .MARKET ∧ time < p.entryTime then .PENDING else .OPEN
      size := p.initialSize
      exitPrice := none
      exitTime := none
      exitReason := none
      closedPnl := some 0
      pnl := some 0 }
  else if p.status = .OPEN ∧ p.orderType ≠ .MARKET ∧ time < p.entryTime then
    { p with status := .PENDING, entryTime := 0 }
  else if p.status = .OPEN ∧ (slTriggered p.type p.sl high low ∨ tpTriggered p.type p.tp high low) then
    if slTriggered p.type p.sl high low then
      exitFill cs time (p.sl.getD 0) .SL p
    else
      exitFill cs time (p.tp.getD 0) .TP p
  else if p.status = .PENDING ∧ entryTriggered p.type p.orderType p.entryPrice high low then
    { p with status := .OPEN, entryTime := time }
  else
    p

/-- Trigger-event kinds recorded by `processPriceAction`
(`'SL' | 'TP' | 'PENDING_ENTRY'`). -/
inductive TrigType where
  | SL
  | TP
  | PENDING_ENTRY
deriving DecidableEq, Repr

/-- Deterministic fields of the `TriggeredEvent` record
(the random `id` and wall-clock `time` fields are omitted). -/
structure TriggeredEvent where
  price : ℚ
  type : TrigType
  positionId : String
  candleTime : ℚ
deriving DecidableEq, Repr

/-- The triggered-event record that the per-position body of
`processPriceAction` pushes for a position, if any: pushed only inside the
SL/TP exit branch and the pending-entry branch, and only when
`chartSettings.autoPauseOnTrigger && (isPlaying || isReplayMode)`. -/
def evalEvent (autoPause isPlaying isReplayMode : Bool) (high low time : ℚ)
    (p : Position) : Option TriggeredEvent :=
  if p.status = .CLOSED ∧ truthy p.exitTime ∧ time < p.exitTime.getD 0 then
    none
  else if p.status = .OPEN ∧ p.orderType ≠ .MARKET ∧ time < p.entryTime then
    none
  else if p.status = .OPEN ∧ (slTriggered p.type p.sl high low ∨ tpTriggered p.type p.tp high low) then
    if autoPause ∧ (isPlaying ∨ isReplayMode) then
      if slTriggered p.type p.sl high low then
        some ⟨p.sl.getD 0, .SL, p.id, time⟩
      else
        some ⟨p.tp.getD 0, .TP, p.id, time⟩
    else
      none
  else if p.status = .PENDING ∧ entryTriggered p.type p.orderType p.entryPrice high low then
    if autoPause ∧ (isPlaying ∨ isReplayMode) then
      some ⟨p.entryPrice, .PENDING_ENTRY, p.id, time⟩
    else
      none
  else
    none

/-- Whether a branch of the per-position body fires for `p` — this is
exactly when the JavaScript code sets its `hasChanges` flag for `p`. -/
def evalFired (high low time : ℚ) (p : Position) : Bool :=
  decide (p.status = .CLOSED ∧ truthy p.exitTime ∧ time < p.exitTime.getD 0) ||
  decide (p.status = .OPEN ∧ p.orderType ≠ .MARKET ∧ time < p.entryTime) ||
  (decide (p.status = .OPEN) && (slTriggered p.type p.sl high low || tpTriggered p.type p.tp high low)) ||
  (decide (p.status = .PENDING) && entryTriggered p.type p.orderType p.entryPrice high low)

/-- `processPriceAction` at one candle (`high`, `low`, `time`): returns the
updated position list, the batch of newly recorded triggered events, and
the new `isPlaying` flag.  The JavaScript updater returns the original
array object when `hasChanges` is false; that array is element-wise equal
to the mapped one, so the value-level model always returns the mapped
list.  Events are appended and `setIsPlaying(false)` is called only under
`hasChanges && autoPauseOnTrigger && (isPlaying || isReplayMode) &&
newTriggeredEvents.length > 0`. -/
def processPriceAction (cs high low time : ℚ)
    (autoPause isPlaying isReplayMode : Bool) (ps : List Position) :
    List Position × List TriggeredEvent × Bool :=
  let updated := ps.map (evalPosition cs high low time)
  let events := ps.filterMap (evalEvent autoPause isPlaying isReplayMode high low time)
  let fire := ps.any (evalFired high low time) && autoPause &&
    (isPlaying || isReplayMode) && !events.isEmpty
  (updated, if fire then events else [], if fire then false else isPlaying)

/-- `handleTradeExecution` (`App`): append a new position; MARKET orders
are created OPEN at the current price, others PENDING at the requested
entry; `entryTime` is the replay cursor in both cases. -/
def handleTradeExecution (cursor currentPrice : ℚ) (id : String)
    (t : PosType) (ot : OrderType) (size entry : ℚ) (sl tp : Option ℚ)
    (assetSym : String) (ps : List Position) : List Position :=
  let finalEntry := if ot = .MARKET then currentPrice else entry
  let st := if ot = .MARKET then Status.OPEN else Status.PENDING
  ps ++ [{ id := id, type := t, orderType := ot, entryPrice := finalEntry,
           entryTime := cursor, size := size, initialSize := size,
           riskAmount := 0, sl := sl, tp := tp, status := st,
           exitPrice := none, exitTime := none, pnl := none,
           closedPnl := none, asset := assetSym, exitReason := none,
           parentId := none }]

/-- `handleClosePosition` (`App`): find the position by id — a plain
`find?`, with no check of its status — and, if found, overwrite every
position with that id to CLOSED/MANUAL at the given price, with
`exitTime` = the replay cursor and `closedPnl` recomputed from the found
position's direction, entry and size.  If no position has the id the list
is returned unchanged. -/
def handleClosePosition (cs cursor : ℚ) (id : String) (price : ℚ)
    (ps : List Position) : List Position :=
  match ps.find? (fun x => x.id == id) with
  | none => ps
  | some p =>
    let pnl := signedDiff p.type p.entryPrice price * p.size * cs
    ps.map (fun x =>
      if x.id = id then
        { x with status := .CLOSED, exitPrice := some price,
                 exitTime := some cursor, closedPnl := some pnl,
                 exitReason := some .MANUAL }
      else x)

/-- `handleDeletePosition` (`App`): unconditional removal by id. -/
def handleDeletePosition (id : String) (ps : List Position) : List Position :=
  ps.filter (fun x => x.id != id)

/-- `handleUpdatePosition` (`App`): `{...x, ...updates}` — each update key
that is present overwrites the corresponding field. -/
def handleUpdatePosition (id : String) (uSl uTp uEntry : Option ℚ)
    (ps : List Position) : List Position :=
  ps.map (fun x =>
    if x.id = id then
      { x with sl := if uSl.isSome then uSl else x.sl,
               tp := if uTp.isSome then uTp else x.tp,
               entryPrice := uEntry.getD x.entryPrice }
    else x)

/-- The `onConfirm` handler of `PartialCloseModal` in `App`
(`src/unnamed/part_006`): split off a CLOSED fragment of size `sz`
(`parentId` = parent id, `exitReason` = PARTIAL) and decrement the parent
to `size - sz`; if the remainder is below `0.01` the parent itself is
closed (with `exitReason` = MANUAL) and no fragment is appended.  `fragId`
models the `Math.random()` fragment id. -/
def onPartialCloseConfirm (cs cursor : ℚ) (fragId id : String)
    (sz price : ℚ) (ps : List Position) : List Position :=
  match ps.find? (fun x => x.id == id) with
  | none => ps
  | some p =>
    let rem := p.size - sz
    let pnl := signedDiff p.type p.entryPrice price * sz * cs
    let closedPortion : Position :=
      { p with id := fragId, size := sz, initialSize := sz,
               status := .CLOSED, exitPrice := some price,
               exitTime := some cursor, closedPnl := some pnl,
               parentId := some p.id, exitReason := some .PARTIAL }
    if rem < 0.01 then
      ps.map (fun x =>
        if x.id = id then
          { x with status := .CLOSED, exitPrice := some price,
                   exitTime := some cursor, closedPnl := some pnl,
                   exitReason := some .MANUAL }
        else x)
    else
      (ps.map (fun x => if x.id = id then { x with size := rem } else x)) ++
        [closedPortion]

/-- Rounding to two decimals, the value-level meaning of
`parseFloat(x.toFixed(2))` / `Number(x.toFixed(2))` (ties round toward
the larger candidate, matching `toFixed`). -/
def round2 (q : ℚ) : ℚ :=
  ((round (q * 100) : ℤ) : ℚ) / 100

/-- The `sizeToClose` computation of `PartialCloseModal`
(`src/unnamed/part_003`):
`Math.max(0.01, parseFloat((position.size * (closePercentage / 100)).toFixed(2)))`. -/
def sizeToCloseOf (size pct : ℚ) : ℚ :=
  max 0.01 (round2 (size * (pct / 100)))

/-- `'Fixed' | 'Percent'` risk mode of `TradePanel`. -/
inductive RiskType where
  | Fixed
  | Percent
deriving DecidableEq, Repr

/-- `calculateLots` of `TradePanel.tsx`.  `riskPerLot || 0.00000001` is a
JavaScript truthiness fallback: the divisor is `10⁻⁸` exactly when
`riskPerLot` is zero. -/
def calculateLots (rt : RiskType) (riskValue balance : ℚ) (pipDecimal : ℕ)
    (tickSize contractSize : ℚ) (entry sl : ℚ) : ℚ :=
  let riskAmt := if rt = .Percent then balance * riskValue / 100 else riskValue
  let pf : ℚ := 10 ^ pipDecimal
  let pips := |entry - sl| * pf
  let pipValueInQuote := tickSize * contractSize
  let riskPerLot := pips * pipValueInQuote
  let lots := riskAmt / (if riskPerLot = 0 then 1 / 10 ^ 8 else riskPerLot)
  max 0.01 (round2 lots)

/-- One tick of the animation-frame loop of `App` while playing: the raw
advance `cur + dt/1000 * speed * candleDuration`, then the sequential
clamps against `sessionEndTime` and the last loaded candle's time, each of
which also stops playback.  Returns the new cursor time and the new
`isPlaying` flag (the loop body only runs while playing). -/
def advanceCursor (cur dtMs speed candleDur sessionEndTime lastDataTime : ℚ) :
    ℚ × Bool :=
  let nextRaw := cur + dtMs / 1000 * speed * candleDur
  let stop1 := sessionEndTime ≤ nextRaw
  let next1 := if stop1 then sessionEndTime else nextRaw
  let stop2 := lastDataTime ≤ next1
  let next2 := if stop2 then lastDataTime else next1
  (next2, !(decide stop1 || decide stop2))

/-- `positions.reduce((acc, p) => acc + (p.closedPnl || 0), 0)` from the
balance-recompute effect of `App`. -/
def sumClosedPnl (ps : List Position) : ℚ :=
  ps.foldl (fun acc p => acc + p.closedPnl.getD 0) 0

/-- Engine state owned by `App`: initial balance, derived balance, and the
position list. -/
structure EngineState where
  initialBalance : ℚ
  balance : ℚ
  positions : List Position
deriving DecidableEq, Repr

/-- The position-mutating commands exposed to the UI layer, plus the
per-candle evaluation; each carries the replay-cursor / candle context it
reads when it runs. -/
inductive Command where
  | openPos (cursor currentPrice : ℚ) (id : String) (t : PosType)
      (ot : OrderType) (size entry : ℚ) (sl tp : Option ℚ) (assetSym : String)
  | closePos (cursor : ℚ) (id : String) (price : ℚ)
  | partialClosePos (cursor : ℚ) (fragId id : String) (sz price : ℚ)
  | updatePos (id : String) (uSl uTp uEntry : Option ℚ)
  | deletePos (id : String)
  | evalCandle (high low time : ℚ)
deriving DecidableEq, Repr

/-- The position-list effect of each command (the first component of
`processPriceAction` does not depend on the auto-pause flags, which only
gate event recording). -/
def applyPositions (cs : ℚ) (c : Command) (ps : List Position) : List Position :=
  match c with
  | .openPos cursor cp id t ot size entry sl tp a =>
    handleTradeExecution cursor cp id t ot size entry sl tp a ps
  | .closePos cursor id price => handleClosePosition cs cursor id price ps
  | .partialClosePos cursor fragId id sz price =>
    onPartialCloseConfirm cs cursor fragId id sz price ps
  | .updatePos id uSl uTp uEntry => handleUpdatePosition id uSl uTp uEntry ps
  | .deletePos id => handleDeletePosition id ps
  | .evalCandle high low time =>
    (processPriceAction cs high low time false false false ps).1

/-- A command followed by the balance-recompute effect of `App`
(`useEffect` on `[positions, initialBalance, ...]`):
`setBalance(initialBalance + realizedPnL)` where `realizedPnL` is summed
from scratch over the whole position list. -/
def applyCommand (cs : ℚ) (s : EngineState) (c : Command) : EngineState :=
  let ps := applyPositions cs c s.positions
  { s with positions := ps, balance := s.initialBalance + sumClosedPnl ps }

/-! ## Helper lemmas -/

/-- An OPEN position that is not rewind-untriggered goes through the SL/TP
exit evaluation, SL tested first. -/
theorem evalPosition_open_exit (cs high low time : ℚ) (p : Position)
    (hopen : p.status = .OPEN)
    (hgate : ¬ (p.orderType ≠ .MARKET ∧ time < p.entryTime)) :
    evalPosition cs high low time p =
      if slTriggered p.type p.sl high low then
        exitFill cs time (p.sl.getD 0) .SL p
      else if tpTriggered p.type p.tp high low then
        exitFill cs time (p.tp.getD 0) .TP p
      else p := by
  unfold evalPosition
  have h1 : ¬ (p.status = .CLOSED ∧ truthy p.exitTime ∧ time < p.exitTime.getD 0) := by
    simp [hopen]
  have h2 : ¬ (p.status = .OPEN ∧ p.orderType ≠ .MARKET ∧ time < p.entryTime) := by
    intro h; exact hgate h.2
  rw [if_neg h1, if_neg h2]
  by_cases hsl : slTriggered p.type p.sl high low
  · rw [if_pos ⟨hopen, Or.inl hsl⟩, if_pos hsl, if_pos hsl]
  · by_cases htp : tpTriggered p.type p.tp high low
    · rw [if_pos ⟨hopen, Or.inr htp⟩, if_neg hsl, if_neg hsl, if_pos htp]
    · have h3 : ¬ (p.status = .OPEN ∧
          (slTriggered p.type p.sl high low ∨ tpTriggered p.type p.tp high low)) := by
        rintro ⟨-, h | h⟩
        · exact hsl h
        · exact htp h
      have h4 : ¬ (p.status = .PENDING ∧
          entryTriggered p.type p.orderType p.entryPrice high low) := by
        simp [hopen]
      rw [if_neg h3, if_neg h4, if_neg hsl, if_neg htp]

/-- A CLOSED position whose `exitTime` is not (truthily) in the candle's
future is left untouched by the per-position body. -/
theorem evalPosition_closed_stable (cs high low time : ℚ) (q : Position)
    (h : q.status = .CLOSED)
    (h2 : ¬ (truthy q.exitTime ∧ time < q.exitTime.getD 0)) :
    evalPosition cs high low time q = q := by
  unfold evalPosition
  rw [if_neg, if_neg, if_neg, if_neg]
  · simp [h]
  · simp [h]
  · simp [h]
  · rintro ⟨-, hh⟩; exact h2 hh

/-- If the per-position body leaves a position CLOSED, then either the
position was untouched or it was closed at the current candle's time. -/
theorem evalPosition_closed_cases (cs high low time : ℚ) (p : Position)
    (h : (evalPosition cs high low time p).status = .CLOSED) :
    evalPosition cs high low time p = p ∨
      (evalPosition cs high low time p).exitTime = some time := by
  unfold evalPosition at h ⊢
  split_ifs at h ⊢ <;> simp_all [exitFill]

/-! ## Concrete positions used by counterexamples and witnesses -/

/-- A PENDING BUY LIMIT order at `100` with SL `95`; against a candle with
`low = 90` both the entry trigger and the SL level are inside the range. -/
def pendingBuyLimitDemo : Position :=
  { id := "p1", type := .BUY, orderType := .LIMIT, entryPrice := 100,
    entryTime := 3, size := 1, initialSize := 1, riskAmount := 0,
    tp := none, sl := some 95, status := .PENDING, exitPrice := none,
    exitTime := none, pnl := none, closedPnl := none, asset := "EURUSD",
    exitReason := none, parentId := none }

/-- An OPEN BUY MARKET position with SL `95`. -/
def openBuySlDemo : Position :=
  { id := "o1", type := .BUY, orderType := .MARKET, entryPrice := 110,
    entryTime := 5, size := 1, initialSize := 1, riskAmount := 0,
    tp := none, sl := some 95, status := .OPEN, exitPrice := none,
    exitTime := none, pnl := none, closedPnl := none, asset := "EURUSD",
    exitReason := none, parentId := none }

/-- An OPEN BUY position whose SL `105` and TP `115` are both inside
the range of a candle with `high = 120`, `low = 100`. -/
def openBuyBothDemo : Position :=
  { id := "b1", type := .BUY, orderType := .MARKET, entryPrice := 110,
    entryTime := 5, size := 1, initialSize := 1, riskAmount := 0,
    tp := some 115, sl := some 105, status := .OPEN,
    exitPrice := none, exitTime := none, pnl := none, closedPnl := none,
    asset := "EURUSD", exitReason := none, parentId := none }

/-- An OPEN BUY position with no SL and TP `110`. -/
def openBuyTpDemo : Position :=
  { openBuyBothDemo with id := "b2", sl := none, tp := some 110 }

/-- An OPEN SELL position whose SL `115` and TP `105` are both inside
the range of a candle with `high = 120`, `low = 100`. -/
def openSellBothDemo : Position :=
  { id := "s1", type := .SELL, orderType := .MARKET, entryPrice := 110,
    entryTime := 5, size := 1, initialSize := 1, riskAmount := 0,
    tp := some 105, sl := some 115, status := .OPEN,
    exitPrice := none, exitTime := none, pnl := none, closedPnl := none,
    asset := "EURUSD", exitReason := none, parentId := none }

/-- An OPEN SELL position with no SL and TP `105`. -/
def openSellTpDemo : Position :=
  { openSellBothDemo with id := "s2", sl := none, tp := some 105 }

/-- A CLOSED position whose `exitTime = 20` lies after a candle at
`time = 10`. -/
def closedFutureDemo : Position :=
  { id := "c1", type := .BUY, orderType := .MARKET, entryPrice := 100,
    entryTime := 5, size := 1, initialSize := 2, riskAmount := 0,
    tp := none, sl := none, status := .CLOSED, exitPrice := some 110,
    exitTime := some 20, pnl := some 0, closedPnl := some 10,
    asset := "EURUSD", exitReason := some .TP, parentId := none }

/-! ## C1 — idempotent re-evaluation (corrected) -/

/-- Claim C1, counterexample: re-evaluating the same candle is **not**
idempotent.  A PENDING BUY LIMIT order whose entry and SL both lie inside
the candle's range is triggered to OPEN by the first evaluation and then
closed by its SL on the second evaluation of the very same candle, so the
second evaluation produces a new exit fill. -/
theorem c1_counterexample :
    (processPriceAction 100000 200 90 10 false false false
        ((processPriceAction 100000 200 90 10 false false false
            [pendingBuyLimitDemo]).1)).1 ≠
      (processPriceAction 100000 200 90 10 false false false
        [pendingBuyLimitDemo]).1 := by
  decide

/-- Claim C1 as amended: re-evaluation produces no additional mutation for
any position that the first evaluation left unchanged or left CLOSED — in
particular a position already CLOSED by that candle is not re-closed.
Full idempotence fails only for positions whose first-evaluation
transition lands on a non-CLOSED status (a pending order triggered to
OPEN, or a rewind re-opening/un-triggering), which the second evaluation
may transition again. -/
theorem c1_amended_reeval_stable (cs high low time : ℚ) (p : Position)
    (h : evalPosition cs high low time p = p ∨
         (evalPosition cs high low time p).status = .CLOSED) :
    evalPosition cs high low time (evalPosition cs high low time p) =
      evalPosition cs high low time p := by
  rcases h with h | h
  · rw [h]; exact h
  · rcases evalPosition_closed_cases cs high low time p h with heq | het
    · rw [heq]; exact heq
    · refine evalPosition_closed_stable cs high low time _ h ?_
      intro hc
      rw [het] at hc
      simp at hc

/-- Witness for `c1_amended_reeval_stable`: a position closed by the
candle (SL hit) is untouched by a second evaluation. -/
theorem c1_amended_reeval_stable_witness :
    evalPosition 100000 120 100 10
        (evalPosition 100000 120 100 10 openBuyBothDemo) =
      evalPosition 100000 120 100 10 openBuyBothDemo :=
  c1_amended_reeval_stable 100000 120 100 10 openBuyBothDemo (Or.inr (by decide))

/-! ## C2 — SL tested before TP (confirmed) -/

/-- Claim C2: for an OPEN position reaching exit evaluation, stop-loss is
tested before take-profit.  For a BUY, whenever `low ≤ sl` the position
closes at `exitPrice = sl` with `exitReason = SL`, whatever `tp` is (in
particular on a candle whose `high ≥ tp` as well); TP can only fire when
the SL test fails.  Symmetrically for SELL with high/low swapped.  SL/TP
levels are taken positive (`0 < s`), matching the JavaScript truthiness
test `p.sl && ...` which ignores an absent or zero level. -/
theorem c2_sl_priority (cs high low time : ℚ) (p : Position)
    (hopen : p.status = .OPEN)
    (hgate : ¬ (p.orderType ≠ .MARKET ∧ time < p.entryTime)) :
    (∀ slv, p.type = .BUY → p.sl = some slv → 0 < slv → low ≤ slv →
      evalPosition cs high low time p = exitFill cs time slv .SL p) ∧
    (∀ tpv, p.type = .BUY → slTriggered .BUY p.sl high low = false →
      p.tp = some tpv → 0 < tpv → tpv ≤ high →
      evalPosition cs high low time p = exitFill cs time tpv .TP p) ∧
    (∀ slv, p.type = .SELL → p.sl = some slv → 0 < slv → slv ≤ high →
      evalPosition cs high low time p = exitFill cs time slv .SL p) ∧
    (∀ tpv, p.type = .SELL → slTriggered .SELL p.sl high low = false →
      p.tp = some tpv → 0 < tpv → low ≤ tpv →
      evalPosition cs high low time p = exitFill cs time tpv .TP p) := by
  rw [evalPosition_open_exit cs high low time p hopen hgate]
  refine ⟨?_, ?_, ?_, ?_⟩
  · intro slv hty hsl hpos hlow
    have hslt : slTriggered p.type p.sl high low = true := by
      simp [slTriggered, hty, hsl, hpos.ne', hlow]
    rw [if_pos hslt, hsl]
    rfl
  · intro tpv hty hslf htp hpos hhigh
    have htpt : tpTriggered p.type p.tp high low = true := by
      simp [tpTriggered, hty, htp, hpos.ne', hhigh]
    rw [hty] at htpt ⊢
    rw [if_neg (by simp [hslf]), if_pos htpt, htp]
    rfl
  · intro slv hty hsl hpos hhigh
    have hslt : slTriggered p.type p.sl high low = true := by
      simp [slTriggered, hty, hsl, hpos.ne', hhigh]
    rw [if_pos hslt, hsl]
    rfl
  · intro tpv hty hslf htp hpos hlow
    have htpt : tpTriggered p.type p.tp high low = true := by
      simp [tpTriggered, hty, htp, hpos.ne', hlow]
    rw [hty] at htpt ⊢
    rw [if_neg (by simp [hslf]), if_pos htpt, htp]
    rfl

/-- Witness for `c2_sl_priority`: against the candle `high = 1.2`,
`low = 1`, a BUY (resp. SELL) with both levels in range closes via SL at
the SL price, and TP-only positions close via TP. -/
theorem c2_sl_priority_witness :
    (evalPosition 100000 120 100 10 openBuyBothDemo =
      exitFill 100000 10 105 .SL openBuyBothDemo) ∧
    (evalPosition 100000 120 100 10 openBuyTpDemo =
      exitFill 100000 10 110 .TP openBuyTpDemo) ∧
    (evalPosition 100000 120 100 10 openSellBothDemo =
      exitFill 100000 10 115 .SL openSellBothDemo) ∧
    (evalPosition 100000 120 100 10 openSellTpDemo =
      exitFill 100000 10 105 .TP openSellTpDemo) := by
  refine ⟨?_, ?_, ?_, ?_⟩
  · exact (c2_sl_priority 100000 120 100 10 openBuyBothDemo rfl (by decide)).1
      105 rfl rfl (by norm_num) (by norm_num)
  · exact (c2_sl_priority 100000 120 100 10 openBuyTpDemo rfl (by decide)).2.1
      110 rfl (by decide) rfl (by norm_num) (by norm_num)
  · exact (c2_sl_priority 100000 120 100 10 openSellBothDemo rfl (by decide)).2.2.1
      115 rfl rfl (by norm_num) (by norm_num)
  · exact (c2_sl_priority 100000 120 100 10 openSellTpDemo rfl (by decide)).2.2.2
      105 rfl (by decide) rfl (by norm_num) (by norm_num)

/-! ## C7 — rewind re-opening (confirmed) -/

/-- Claim C7: a CLOSED position whose `exitTime` is strictly after the
current candle's time is reopened by the per-candle evaluation: status
reverts to OPEN — or to PENDING when its `orderType` is not MARKET and the
candle time is before its `entryTime` — `exitPrice`, `exitTime` and
`exitReason` are cleared, `size` is restored to `initialSize` and
`closedPnl` is reset to 0.  (Candle times are non-negative epochs, which
makes the JavaScript truthiness test on `exitTime` succeed.) -/
theorem c7_rewind_reopens (cs high low time : ℚ) (p : Position) (et : ℚ)
    (hst : p.status = .CLOSED) (het : p.exitTime = some et) (ht : 0 ≤ time)
    (hlt : time < et) :
    evalPosition cs high low time p =
      { p with
        status := if p.orderType ≠ .MARKET ∧ time < p.entryTime then .PENDING else .OPEN,
        size := p.initialSize, exitPrice := none, exitTime := none,
        exitReason := none, closedPnl := some 0, pnl := some 0 } := by
  have hne : et ≠ 0 := (lt_of_le_of_lt ht hlt).ne'
  have hcond : p.status = .CLOSED ∧ truthy p.exitTime ∧ time < p.exitTime.getD 0 :=
    ⟨hst, by simp [truthy, het, hne], by rw [het]; exact hlt⟩
  unfold evalPosition
  rw [if_pos hcond]

/-- Witness for `c7_rewind_reopens`: a CLOSED MARKET position with
`exitTime = 20` is reopened to OPEN by the candle at `time = 10`. -/
theorem c7_rewind_reopens_witness :
    evalPosition 100000 200 90 10 closedFutureDemo =
      { closedFutureDemo with
        status := .OPEN, size := 2, exitPrice := none, exitTime := none,
        exitReason := none, closedPnl := some 0, pnl := some 0 } := by
  rw [c7_rewind_reopens 100000 200 90 10 closedFutureDemo 20 rfl rfl (by norm_num)
    (by norm_num)]
  decide

/-! ## C10 — at most one lifecycle transition per evaluation (confirmed) -/

/-- Claim C10: within one per-candle evaluation each position undergoes at
most one transition.  A PENDING order that triggers becomes exactly
`{p with status := OPEN, entryTime := time}` — its SL/TP is not evaluated
in the same call even if the candle range satisfies it — and a CLOSED
position reopened by the rewind branch leaves the call with a non-CLOSED
status and cleared exit fields, never an exit fill. -/
theorem c10_single_transition (cs high low time : ℚ) (p : Position) :
    (p.status = .PENDING →
      entryTriggered p.type p.orderType p.entryPrice high low = true →
      evalPosition cs high low time p = { p with status := .OPEN, entryTime := time }) ∧
    (∀ et, p.status = .CLOSED → p.exitTime = some et → et ≠ 0 → time < et →
      (evalPosition cs high low time p).status ≠ .CLOSED ∧
      (evalPosition cs high low time p).exitPrice = none ∧
      (evalPosition cs high low time p).exitReason = none) := by
  constructor
  · intro hst htrig
    unfold evalPosition
    rw [if_neg (by simp [hst]), if_neg (by simp [hst]), if_neg (by simp [hst]),
      if_pos ⟨hst, htrig⟩]
  · intro et hst het hne hlt
    have hcond : p.status = .CLOSED ∧ truthy p.exitTime ∧ time < p.exitTime.getD 0 :=
      ⟨hst, by simp [truthy, het, hne], by rw [het]; exact hlt⟩
    unfold evalPosition
    rw [if_pos hcond]
    refine ⟨?_, rfl, rfl⟩
    split <;> simp

/-- Witness for `c10_single_transition`: the PENDING BUY LIMIT order whose
entry and SL are both inside the candle range only triggers (it is not
closed in the same call), and the reopened CLOSED position carries no exit
fill. -/
theorem c10_single_transition_witness :
    (evalPosition 100000 200 90 10 pendingBuyLimitDemo =
      { pendingBuyLimitDemo with status := .OPEN, entryTime := 10 }) ∧
    ((evalPosition 100000 200 90 10 closedFutureDemo).status ≠ .CLOSED ∧
      (evalPosition 100000 200 90 10 closedFutureDemo).exitPrice = none ∧
      (evalPosition 100000 200 90 10 closedFutureDemo).exitReason = none) :=
  ⟨(c10_single_transition 100000 200 90 10 pendingBuyLimitDemo).1 rfl (by decide),
   (c10_single_transition 100000 200 90 10 closedFutureDemo).2 20 rfl rfl
     (by norm_num) (by norm_num)⟩

/-! ## C3 — balance recomputation invariant (confirmed) -/

/-- Claim C3: after every command (and per-candle evaluation) the balance
equals `initialBalance + Σ closedPnl` over the whole position list —
`App`'s effect recomputes it from scratch from the list whenever positions
change, so the invariant holds after each command of any sequence. -/
theorem c3_balance_recompute_invariant (cs : ℚ) :
    (∀ (s : EngineState) (c : Command),
      (applyCommand cs s c).balance =
        (applyCommand cs s c).initialBalance +
          sumClosedPnl (applyCommand cs s c).positions) ∧
    (∀ (cmds : List Command) (s : EngineState), cmds ≠ [] →
      (cmds.foldl (applyCommand cs) s).balance =
        (cmds.foldl (applyCommand cs) s).initialBalance +
          sumClosedPnl (cmds.foldl (applyCommand cs) s).positions) := by
  constructor
  · intro s c
    rfl
  · intro cmds
    induction cmds with
    | nil => intro s h; exact absurd rfl h
    | cons c rest ih =>
      intro s _
      cases rest with
      | nil => rfl
      | cons c2 rest2 =>
        rw [List.foldl_cons]
        exact ih _ (by simp)

/-- Witness for `c3_balance_recompute_invariant`: a concrete two-command
run (open a MARKET BUY, then close it) ends with the invariant holding. -/
theorem c3_balance_recompute_invariant_witness :
    ([Command.openPos 5 100 "w1" .BUY .MARKET 1 0 none none "EURUSD",
      Command.closePos 7 "w1" 105].foldl (applyCommand 100000)
        ⟨1000, 1000, []⟩).balance =
      ([Command.openPos 5 100 "w1" .BUY .MARKET 1 0 none none "EURUSD",
        Command.closePos 7 "w1" 105].foldl (applyCommand 100000)
          ⟨1000, 1000, []⟩).initialBalance +
        sumClosedPnl (([Command.openPos 5 100 "w1" .BUY .MARKET 1 0 none none "EURUSD",
          Command.closePos 7 "w1" 105].foldl (applyCommand 100000)
            ⟨1000, 1000, []⟩).positions) :=
  (c3_balance_recompute_invariant 100000).2
    [Command.openPos 5 100 "w1" .BUY .MARKET 1 0 none none "EURUSD",
     Command.closePos 7 "w1" 105] ⟨1000, 1000, []⟩ (by simp)

/-! ## C4 — manual close semantics (corrected) -/

/-- A CLOSED position (closed by TP) used to exhibit the re-close. -/
def closedTpDemo : Position :=
  { id := "a", type := .BUY, orderType := .MARKET, entryPrice := 100,
    entryTime := 5, size := 2, initialSize := 2, riskAmount := 0,
    tp := some 110, sl := none, status := .CLOSED, exitPrice := some 110,
    exitTime := some 8, pnl := some 0, closedPnl := some 20,
    asset := "EURUSD", exitReason := some .TP, parentId := none }

/-- Claim C4, counterexample: `closePosition` is **not** a no-op on a
position that is already CLOSED — `handleClosePosition` only checks that
the id exists, so an already-CLOSED position is re-closed (its exit
fields, reason and pnl are overwritten with MANUAL data). -/
theorem c4_counterexample :
    handleClosePosition 100000 10 "a" 120 [closedTpDemo] ≠ [closedTpDemo] := by
  decide

/-- Claim C4 as amended: `closePosition(id, price)` is a silent no-op
exactly when no position has the id; when one does, every position with
that id — whatever its status, including already CLOSED — is set to
CLOSED with `exitReason = MANUAL`, `exitTime` = the current cursor and
`closedPnl` recomputed at the given exit price from the first matching
position's direction, entry and size, while positions with other ids are
untouched.  No exception is ever thrown (the function is total). -/
theorem c4_amended_close_behaviour (cs cursor price : ℚ) (id : String)
    (ps : List Position) :
    (ps.find? (fun x => x.id == id) = none →
      handleClosePosition cs cursor id price ps = ps) ∧
    (∀ p, ps.find? (fun x => x.id == id) = some p →
      (handleClosePosition cs cursor id price ps).length = ps.length ∧
      ∀ i, (hi : i < ps.length) →
        (ps[i].id = id →
          (handleClosePosition cs cursor id price ps)[i]? =
            some { ps[i] with
                   status := .CLOSED, exitPrice := some price,
                   exitTime := some cursor,
                   closedPnl := some (signedDiff p.type p.entryPrice price * p.size * cs),
                   exitReason := some .MANUAL }) ∧
        (ps[i].id ≠ id →
          (handleClosePosition cs cursor id price ps)[i]? = some ps[i])) := by
  constructor
  · intro h
    unfold handleClosePosition
    rw [h]
  · intro p hp
    unfold handleClosePosition
    rw [hp]
    refine ⟨List.length_map _ _, ?_⟩
    intro i hi
    constructor
    · intro hid
      rw [List.getElem?_map, List.getElem?_eq_getElem hi]
      simp [hid]
    · intro hid
      rw [List.getElem?_map, List.getElem?_eq_getElem hi]
      simp [hid]

/-- Witness for `c4_amended_close_behaviour`: an unknown id leaves the
list unchanged; the id of an already-CLOSED position makes it re-closed
as MANUAL at the new price. -/
theorem c4_amended_close_behaviour_witness :
    (handleClosePosition 100000 10 "zzz" 120 [closedTpDemo] = [closedTpDemo]) ∧
    (handleClosePosition 100000 10 "a" 120 [closedTpDemo])[0]? =
      some { closedTpDemo with
             status := .CLOSED, exitPrice := some 120,
             exitTime := some 10,
             closedPnl := some (signedDiff PosType.BUY 100 120 * 2 * 100000),
             exitReason := some .MANUAL } := by
  constructor
  · exact (c4_amended_close_behaviour 100000 10 120 "zzz" [closedTpDemo]).1 (by decide)
  · exact (((c4_amended_close_behaviour 100000 10 120 "a" [closedTpDemo]).2
      closedTpDemo (by decide)).2 0 (by decide)).1 rfl

/-! ## C8 — frame advance with clamping (confirmed) -/

/-- Claim C8: the new cursor time is
`cursorTime + elapsedWallMs/1000 * speedMultiplier * candleDurationMs`,
clamped to never exceed the minimum of the session's configured end time
and the last loaded candle's timestamp, and whenever either clamp
condition fires (the raw advance reaches the session end or the last
candle) playback transitions from playing to paused. -/
theorem c8_advance_clamped (cur dtMs speed candleDur sEnd lastData : ℚ) :
    (advanceCursor cur dtMs speed candleDur sEnd lastData).1 =
      min (cur + dtMs / 1000 * speed * candleDur) (min sEnd lastData) ∧
    ((advanceCursor cur dtMs speed candleDur sEnd lastData).2 = false ↔
      sEnd ≤ cur + dtMs / 1000 * speed * candleDur ∨
        lastData ≤ cur + dtMs / 1000 * speed * candleDur) := by
  simp only [advanceCursor]
  by_cases h1 : sEnd ≤ cur + dtMs / 1000 * speed * candleDur
  · rw [if_pos h1]
    by_cases h2 : lastData ≤ sEnd
    · rw [if_pos h2]
      refine ⟨?_, by simp [h1]⟩
      rw [min_eq_right h2, min_eq_right (h2.trans h1)]
    · rw [if_neg h2]
      refine ⟨?_, by simp [h1]⟩
      rw [min_eq_left (le_of_not_le h2), min_eq_right h1]
  · rw [if_neg h1]
    by_cases h2 : lastData ≤ cur + dtMs / 1000 * speed * candleDur
    · rw [if_pos h2]
      refine ⟨?_, by simp [h1, h2]⟩
      have hr : cur + dtMs / 1000 * speed * candleDur < sEnd := lt_of_not_le h1
      rw [min_eq_right (h2.trans hr.le), min_eq_right h2]
    · rw [if_neg h2]
      refine ⟨?_, by simp [h1, h2]⟩
      rw [min_eq_left (le_min (lt_of_not_le h1).le (lt_of_not_le h2).le)]

/-! ## C5 — lot sizing with zero stop distance (corrected) -/

/-- Claim C5, counterexample: with `entryPrice == stopPrice` the lot-size
calculation does **not** return the minimum `0.01`.  The `|| 0.00000001`
fallback avoids an infinite result, but the risk amount is then divided by
`10⁻⁸`, producing an enormous lot count: with balance `10000`, risk `1%`
(risk amount `100`), `calculateLots` returns `10¹⁰` lots. -/
theorem c5_counterexample :
    calculateLots .Percent 1 10000 4 1 100000 2 2 = 10000000000 ∧
    (10000000000 : ℚ) ≠ 1/100 := by
  constructor
  · norm_num [calculateLots, round2, round_eq]
  · norm_num

/-- Claim C5 as amended: with `entryPrice == stopPrice` the pip distance
and hence `riskPerLot` are zero, so the truthiness fallback replaces the
divisor by `10⁻⁸`: the function is total — no exception, no division by
zero (hence never an infinite or undefined value) — and returns
`max 0.01 (round2 (riskAmount * 10⁸))`, which equals `0.01` only when the
risk amount is (close to) zero, and a huge lot count otherwise. -/
theorem c5_amended_lots_degenerate (rt : RiskType) (riskValue balance : ℚ)
    (pipDecimal : ℕ) (tickSize contractSize : ℚ) (entry sl : ℚ)
    (h : entry = sl) :
    calculateLots rt riskValue balance pipDecimal tickSize contractSize entry sl =
      max 0.01 (round2
        ((if rt = .Percent then balance * riskValue / 100 else riskValue) * 10 ^ 8)) := by
  subst h
  simp only [calculateLots]
  rw [sub_self, abs_zero, zero_mul, zero_mul, if_pos rfl, one_div, div_inv_eq_mul]

/-- Witness for `c5_amended_lots_degenerate`: a fixed risk amount of `5`
with `entry = sl = 2` yields `max 0.01 (round2 (5 * 10⁸))`. -/
theorem c5_amended_lots_degenerate_witness :
    calculateLots .Fixed 5 0 4 1 100000 2 2 =
      max 0.01 (round2
        ((if RiskType.Fixed = RiskType.Percent then (0:ℚ) * 5 / 100 else 5) * 10 ^ 8)) :=
  c5_amended_lots_degenerate .Fixed 5 0 4 1 100000 2 2 rfl

/-! ## C6 — partial-close conservation (confirmed) -/

/-- Unfolding of `onPartialCloseConfirm` once the parent has been found. -/
theorem onPartialCloseConfirm_of_found (cs cursor : ℚ) (fragId id : String)
    (sz price : ℚ) (ps : List Position) (p : Position)
    (hp : ps.find? (fun x => x.id == id) = some p) :
    onPartialCloseConfirm cs cursor fragId id sz price ps =
      if p.size - sz < 0.01 then
        ps.map (fun x =>
          if x.id = id then
            { x with
              status := .CLOSED, exitPrice := some price,
              exitTime := some cursor,
              closedPnl := some (signedDiff p.type p.entryPrice price * sz * cs),
              exitReason := some .MANUAL }
          else x)
      else
        (ps.map (fun x => if x.id = id then { x with size := p.size - sz } else x)) ++
          [{ p with
             id := fragId, size := sz, initialSize := sz, status := .CLOSED,
             exitPrice := some price, exitTime := some cursor,
             closedPnl := some (signedDiff p.type p.entryPrice price * sz * cs),
             parentId := some p.id, exitReason := some .PARTIAL }] := by
  unfold onPartialCloseConfirm
  rw [hp]

/-- The parent position used by the partial-close witness. -/
def parentDemo : Position :=
  { id := "par", type := .BUY, orderType := .MARKET, entryPrice := 100,
    entryTime := 5, size := 1, initialSize := 1, riskAmount := 0,
    tp := none, sl := none, status := .OPEN, exitPrice := none,
    exitTime := none, pnl := none, closedPnl := none, asset := "EURUSD",
    exitReason := none, parentId := none }

/-- Claim C6: a partial close of a found parent of size `S` with requested
size `s` (0 < s) appends a CLOSED fragment of size exactly `s` with
`parentId` = parent id and `exitReason` = PARTIAL while the parent's size
becomes exactly `S - s` (so `s + (S - s) = S` exactly) whenever
`S - s ≥ 0.01`; when `S - s < 0.01` the parent itself is fully closed and
no fragment is appended (the list keeps its length).  The size actually
requested by the UI is the modal's `sizeToClose`, which is clamped to at
least `0.01`, so no fragment of size below `0.01` is ever created. -/
theorem c6_partial_close_conservation (cs cursor : ℚ) (fragId id : String)
    (sz price : ℚ) (ps : List Position) :
    (∀ p, ps.find? (fun x => x.id == id) = some p → 0 < sz →
      0.01 ≤ p.size - sz →
      onPartialCloseConfirm cs cursor fragId id sz price ps =
        (ps.map (fun x => if x.id = id then { x with size := p.size - sz } else x)) ++
          [{ p with
             id := fragId, size := sz, initialSize := sz, status := .CLOSED,
             exitPrice := some price, exitTime := some cursor,
             closedPnl := some (signedDiff p.type p.entryPrice price * sz * cs),
             parentId := some p.id, exitReason := some .PARTIAL }] ∧
      sz + (p.size - sz) = p.size) ∧
    (∀ p, ps.find? (fun x => x.id == id) = some p → p.size - sz < 0.01 →
      (onPartialCloseConfirm cs cursor fragId id sz price ps).length = ps.length ∧
      ∀ i, (hi : i < ps.length) → ps[i].id = id →
        (onPartialCloseConfirm cs cursor fragId id sz price ps)[i]? =
          some { ps[i] with
                 status := .CLOSED, exitPrice := some price,
                 exitTime := some cursor,
                 closedPnl := some (signedDiff p.type p.entryPrice price * sz * cs),
                 exitReason := some .MANUAL }) ∧
    (∀ size pct, (0.01 : ℚ) ≤ sizeToCloseOf size pct) := by
  refine ⟨?_, ?_, ?_⟩
  · intro p hp _ hrem
    rw [onPartialCloseConfirm_of_found cs cursor fragId id sz price ps p hp,
      if_neg (not_lt.mpr hrem)]
    exact ⟨rfl, by ring⟩
  · intro p hp hrem
    rw [onPartialCloseConfirm_of_found cs cursor fragId id sz price ps p hp,
      if_pos hrem]
    refine ⟨List.length_map _ _, ?_⟩
    intro i hi hid
    rw [List.getElem?_map, List.getElem?_eq_getElem hi]
    simp [hid]
  · intro size pct
    exact le_max_left _ _

/-- Witness for `c6_partial_close_conservation`: closing `0.4` of a parent
of size `1` appends the fragment and conserves the size; requesting
`0.995` leaves a remainder below `0.01`, so the parent is fully closed
with no fragment; the modal's `sizeToClose` for `50%` is at least
`0.01`. -/
theorem c6_partial_close_conservation_witness :
    (onPartialCloseConfirm 100000 10 "frag" "par" (2/5) 105 [parentDemo] =
      ([parentDemo].map
          (fun x => if x.id = "par" then { x with size := parentDemo.size - 2/5 } else x)) ++
        [{ parentDemo with
           id := "frag", size := 2/5, initialSize := 2/5, status := .CLOSED,
           exitPrice := some 105, exitTime := some 10,
           closedPnl := some (signedDiff parentDemo.type parentDemo.entryPrice 105 * (2/5) * 100000),
           parentId := some parentDemo.id, exitReason := some .PARTIAL }] ∧
      (2:ℚ)/5 + (parentDemo.size - 2/5) = parentDemo.size) ∧
    ((onPartialCloseConfirm 100000 10 "frag" "par" (995/1000) 105 [parentDemo]).length =
      [parentDemo].length) ∧
    ((0.01 : ℚ) ≤ sizeToCloseOf 1 50) := by
  refine ⟨?_, ?_, ?_⟩
  · exact (c6_partial_close_conservation 100000 10 "frag" "par" (2/5) 105
      [parentDemo]).1 parentDemo (by decide) (by norm_num) (by norm_num [parentDemo])
  · exact ((c6_partial_close_conservation 100000 10 "frag" "par" (995/1000) 105
      [parentDemo]).2.1 parentDemo (by decide) (by norm_num [parentDemo])).1
  · exact (c6_partial_close_conservation 100000 10 "frag" "par" 1 105
      [parentDemo]).2.2 1 50

/-! ## C9 — auto-pause trigger events (corrected) -/

/-- An event is only ever produced under the gate
`autoPause && (isPlaying || isReplayMode)`. -/
theorem evalEvent_none_of_gate (aP iP iR : Bool) (high low time : ℚ)
    (p : Position) (hg : (aP && (iP || iR)) = false) :
    evalEvent aP iP iR high low time p = none := by
  unfold evalEvent
  split_ifs <;> simp_all

/-- A position that produces an event fires a mutating branch (this is how
the JavaScript `hasChanges` flag relates to the pushed events). -/
theorem evalEvent_some_fired (aP iP iR : Bool) (high low time : ℚ)
    (p : Position) (e : TriggeredEvent)
    (h : evalEvent aP iP iR high low time p = some e) :
    evalFired high low time p = true := by
  unfold evalEvent at h
  unfold evalFired
  split_ifs at h <;> simp_all

/-- Claim C9, counterexample: with the auto-pause flag enabled, a
triggered event **is** recorded while the clock is paused, as long as a
replay session is active — the gate in the source is
`isPlaying || isReplayMode`, not the PLAYING state alone.  Here
`isPlaying = false`, `isReplayMode = true` and an SL trigger still records
an event. -/
theorem c9_counterexample :
    (processPriceAction 100000 200 90 10 true false true [openBuySlDemo]).2.1 ≠ [] := by
  decide

/-- Claim C9 as amended: with the auto-pause flag enabled and
`isPlaying || isReplayMode` true (the clock PLAYING **or** a replay
session active, even paused), the per-candle evaluation records one
triggered-event record per triggering position — all of them, in list
order — and forces `isPlaying` to `false` once whenever at least one event
was recorded; with the flag disabled, or no session and not playing, no
event is recorded. -/
theorem c9_amended_trigger_events (cs high low time : ℚ)
    (isPlaying isReplayMode : Bool) (ps : List Position)
    (hflag : (isPlaying || isReplayMode) = true) :
    ((processPriceAction cs high low time true isPlaying isReplayMode ps).2.1 =
      ps.filterMap (evalEvent true isPlaying isReplayMode high low time)) ∧
    (ps.filterMap (evalEvent true isPlaying isReplayMode high low time) ≠ [] →
      (processPriceAction cs high low time true isPlaying isReplayMode ps).2.2 = false) ∧
    (∀ aP2 iP2 iR2, (aP2 && (iP2 || iR2)) = false →
      (processPriceAction cs high low time aP2 iP2 iR2 ps).2.1 = []) := by
  have hthird : ∀ aP2 iP2 iR2, (aP2 && (iP2 || iR2)) = false →
      (processPriceAction cs high low time aP2 iP2 iR2 ps).2.1 = [] := by
    intro aP2 iP2 iR2 hg
    have hnone : ps.filterMap (evalEvent aP2 iP2 iR2 high low time) = [] :=
      List.filterMap_eq_nil_iff.mpr (fun a _ => evalEvent_none_of_gate aP2 iP2 iR2 high low time a hg)
    simp [processPriceAction, hnone]
  by_cases he : ps.filterMap (evalEvent true isPlaying isReplayMode high low time) = []
  · refine ⟨?_, fun hne => absurd he hne, hthird⟩
    simp [processPriceAction, he]
  · obtain ⟨p, hmem, hne⟩ : ∃ p ∈ ps,
        evalEvent true isPlaying isReplayMode high low time p ≠ none := by
      by_contra hall
      push_neg at hall
      exact he (List.filterMap_eq_nil_iff.mpr hall)
    obtain ⟨e, he'⟩ := Option.ne_none_iff_exists'.mp hne
    have hany : ps.any (evalFired high low time) = true :=
      List.any_eq_true.mpr ⟨p, hmem,
        evalEvent_some_fired true isPlaying isReplayMode high low time p e he'⟩
    refine ⟨?_, fun _ => ?_, hthird⟩ <;>
      simp [processPriceAction, hany, hflag, he]

/-- A paused replay session with one OPEN position at its SL and one
PENDING order at its trigger. -/
def demoPair : List Position := [openBuySlDemo, pendingBuyLimitDemo]

/-- Witness for `c9_amended_trigger_events`: in a paused replay session
(`isPlaying = false`, `isReplayMode = true`) both simultaneous triggers
are recorded and the clock is forced to paused. -/
theorem c9_amended_trigger_events_witness :
    ((processPriceAction 100000 200 90 10 true false true demoPair).2.1 =
      demoPair.filterMap (evalEvent true false true 200 90 10)) ∧
    ((processPriceAction 100000 200 90 10 true false true demoPair).2.2 = false) := by
  have h := c9_amended_trigger_events 100000 200 90 10 false true demoPair rfl
  exact ⟨h.1, h.2.1 (by decide)⟩

end FXReplay
